import Mathlib

/-!
Verification of the deprecation-notice module `lib/common/api/deprecate.ts`.

The module is shallowly embedded: the mutable `warned` flag captured by each
`warnOnceMessage` closure becomes an explicit `WarnOnceState` threaded through
step functions; the process-wide flags (`process.noDeprecation`,
`process.throwDeprecation`, `process.traceDeprecation`) are read fresh at each
step, so every step takes the flag values current at that call; the observable
output of the Notice Sink (`log`) is reified as a `LogEffect` value, and the
messages emitted through `log` by a dedup closure are collected as
`Option String` values, one per invocation.
-/

namespace Deprecate

/-- A single-quote character as a string, used to build the message texts of
`deprecate.ts` (the TypeScript template literals quote names with `'`). -/
def singleQuote : String := String.mk [Char.ofNat 39]

/-- The process-wide flags read (never written) by the module:
`process.noDeprecation`, `process.throwDeprecation`, `process.traceDeprecation`.
They are read fresh on every notice emission. -/
structure ProcessFlags where
  noDeprecation : Bool
  throwDeprecation : Bool
  traceDeprecation : Bool
  deriving DecidableEq, Repr

/-- The observable effect of one call to `log(message)`. `H` is the type of
registered custom handlers (only the identity of the handler matters to the
embedding). `handlerCall h m` is the invocation of the custom handler `h` with
message `m`; `thrown m` is `throw new Error(m)`; `traced m` is
`console.trace(m)`; `consoleWarn line` is `console.warn(line)` with the
already-prefixed line. -/
inductive LogEffect (H : Type) where
  | handlerCall : H → String → LogEffect H
  | thrown : String → LogEffect H
  | traced : String → LogEffect H
  | consoleWarn : String → LogEffect H
  deriving DecidableEq, Repr

/-- Embedding of `log(message)`: dispatches on the module-level
`deprecationHandler` (modelled as `Option H`) and then on the process flags,
in source order: custom handler, else `throwDeprecation`, else
`traceDeprecation`, else `console.warn` with the `(electron) ` tag. -/
def log {H : Type} (deprecationHandler : Option H) (flags : ProcessFlags)
    (message : String) : LogEffect H :=
  match deprecationHandler with
  | some h => LogEffect.handlerCall h message
  | none =>
    if flags.throwDeprecation then LogEffect.thrown message
    else if flags.traceDeprecation then LogEffect.traced message
    else LogEffect.consoleWarn ("(electron) " ++ message)

/-- Embedding of `setHandler(handler)`: the module state `deprecationHandler`
after the call is exactly the argument (`null` clears it). -/
def setHandler {H : Type} (handler : Option H) : Option H := handler

/-- Embedding of `getHandler()`: returns the current module state. -/
def getHandler {H : Type} (state : Option H) : Option H := state

/-- The message built by `warnOnce(oldName, newName?)` before delegating to
`warnOnceMessage`: with a `newName` it is
`'<old>' is deprecated and will be removed. Please use '<new>' instead.`,
without one it is `'<old>' is deprecated and will be removed.`. -/
def warnOnceMsg (oldName : String) (newName : Option String) : String :=
  match newName with
  | some n =>
      singleQuote ++ oldName ++ singleQuote ++
        " is deprecated and will be removed. Please use " ++
        singleQuote ++ n ++ singleQuote ++ " instead."
  | none =>
      singleQuote ++ oldName ++ singleQuote ++ " is deprecated and will be removed."

/-- The state owned by one closure returned by `warnOnceMessage`: the captured
mutable `warned` flag, plus `calls`, instrumentation counting how many times
the closure has been invoked (observable in the source as the number of entries
into the closure body; it does not influence behaviour). -/
structure WarnOnceState where
  warned : Bool
  calls : Nat
  deriving DecidableEq, Repr

/-- One invocation of the closure returned by `warnOnceMessage(msg)`:
`if (!warned && !process.noDeprecation) { warned = true; log(msg); }`.
Returns the updated closure state and `some msg` when the body forwarded `msg`
to the Notice Sink, `none` otherwise. `noDeprecation` is the value of
`process.noDeprecation` at this call. -/
def warnOnceStep (msg : String) (s : WarnOnceState) (noDeprecation : Bool) :
    WarnOnceState × Option String :=
  if !s.warned && !noDeprecation then
    (⟨true, s.calls + 1⟩, some msg)
  else
    (⟨s.warned, s.calls + 1⟩, none)

/-- A sequence of invocations of one `warnOnceMessage(msg)` closure, one per
entry of `flagReads` (the value `process.noDeprecation` has at that call).
Returns the final closure state and the per-call emission to the Notice Sink. -/
def warnOnceRun (msg : String) (s : WarnOnceState) :
    List Bool → WarnOnceState × List (Option String)
  | [] => (s, [])
  | f :: rest =>
    let r := warnOnceStep msg s f
    let rr := warnOnceRun msg r.1 rest
    (rr.1, r.2 :: rr.2)

/-- A JavaScript function value as used by the wrapper factory: its `name`
property and its behaviour as a function of the `this` binding and the
argument list. -/
structure JSFunction (Ctx Args Ret : Type) where
  name : String
  call : Ctx → Args → Ret

/-- The observation of one invocation of a wrapper produced by the wrapper
factory: the dedup-closure state after the call, the message (if any) the call
forwarded to the Notice Sink, the `this` binding and argument list the wrapped
function was applied to, the wrapped function's result, and the wrapper's own
result (`R = Unit` models a JavaScript `undefined` return). -/
structure CallObservation (Ctx Args Ret R : Type) where
  state : WarnOnceState
  emitted : Option String
  invokedWith : Ctx × Args
  fnResult : Ret
  wrapperResult : R

/-- Embedding of the construction `removeFunction(fn, removedName)`:
`if (!fn) throw new Error(...)`; a missing function (`none`, the falsy case of
the `Function`-typed argument) raises at construction time, otherwise the
wrapper is the pair of `fn` and a fresh dedup closure. -/
def removeFunction {Ctx Args Ret : Type} (fn : Option (JSFunction Ctx Args Ret))
    (removedName : String) :
    Except String (JSFunction Ctx Args Ret × WarnOnceState) :=
  match fn with
  | none =>
      Except.error (singleQuote ++ removedName ++ " function" ++ singleQuote ++
        " is invalid or does not exist.")
  | some f => Except.ok (f, ⟨false, 0⟩)

/-- One invocation of the wrapper returned by `removeFunction`: it fires the
dedup closure built from `warnOnce(fn.name + " function")`, applies `fn` to
the caller's `this` and arguments, and returns `undefined` (the source wrapper
body is `warn(); fn.apply(this, arguments);` with no `return`). -/
def removeFunctionCall {Ctx Args Ret : Type} (fn : JSFunction Ctx Args Ret)
    (s : WarnOnceState) (noDeprecation : Bool) (ctx : Ctx) (args : Args) :
    CallObservation Ctx Args Ret Unit :=
  let r := warnOnceStep (warnOnceMsg (fn.name ++ " function") none) s noDeprecation
  { state := r.1, emitted := r.2, invokedWith := (ctx, args),
    fnResult := fn.call ctx args, wrapperResult := () }

/-- One invocation of the wrapper returned by `renameFunction(fn, newName)`:
it fires the dedup closure built from
`warnOnce(fn.name + " function", newName + " function")` and returns
`fn.apply(this, arguments)`. -/
def renameFunctionCall {Ctx Args Ret : Type} (fn : JSFunction Ctx Args Ret)
    (newName : String) (s : WarnOnceState) (noDeprecation : Bool)
    (ctx : Ctx) (args : Args) : CallObservation Ctx Args Ret Ret :=
  let r := warnOnceStep
    (warnOnceMsg (fn.name ++ " function") (some (newName ++ " function")))
    s noDeprecation
  { state := r.1, emitted := r.2, invokedWith := (ctx, args),
    fnResult := fn.call ctx args, wrapperResult := fn.call ctx args }

/-- Embedding of the test `newName.startsWith('-')` used by `event` to detect
the reserved internal-event marker: whether the first character of the string
is `-` (character code 45). -/
def startsWithDash (name : String) : Bool :=
  match name.data with
  | [] => false
  | c :: _ => c = Char.ofNat 45

/-- The message of the dedup closure built by `event(emitter, oldName, newName, ...)`:
when `newName` starts with `-` (an internal event) the closure is
`warnOnce(oldName + " event")`, with no replacement suggestion; otherwise it is
`warnOnce(oldName + " event", newName + " event")`. -/
def eventWarnMessage (oldName newName : String) : String :=
  if startsWithDash newName then warnOnceMsg (oldName ++ " event") none
  else warnOnceMsg (oldName ++ " event") (some (newName ++ " event"))

/-- One delivery of a `newName` emission to the listener installed by
`event(emitter, oldName, newName, transformer)`. `listenerCountOld` is
`this.listenerCount(oldName)` at that moment, `args` the emission arguments.
If the count is non-zero, the dedup closure fires, the transformer runs, and
the result (when not the falsy `undefined`, modelled as `none`) is re-emitted
under `oldName`; otherwise nothing happens. Returns the closure state, the
message forwarded to the Notice Sink (if any), and the re-emission (event name
and arguments) if any. -/
def eventListenerStep {V : Type} (oldName newName : String)
    (transformer : List V → Option (List V)) (s : WarnOnceState)
    (listenerCountOld : Nat) (noDeprecation : Bool) (args : List V) :
    WarnOnceState × Option String × Option (String × List V) :=
  if listenerCountOld ≠ 0 then
    let r := warnOnceStep (eventWarnMessage oldName newName) s noDeprecation
    match transformer args with
    | some transformedArgs => (r.1, r.2, some (oldName, transformedArgs))
    | none => (r.1, r.2, none)
  else (s, none, none)

/-- The default transformer of `event`: `(...args) => args`. -/
def defaultTransformer {V : Type} (args : List V) : Option (List V) := some args

/-- A sequence of `newName` emissions delivered to the listener installed by
`event`, one per entry of `inputs`; each entry carries the `oldName` listener
count, the `process.noDeprecation` value and the arguments of that emission.
Returns the final closure state, the per-emission Notice Sink forwarding, and
the per-emission re-emission under `oldName` (if any). -/
def eventRun {V : Type} (oldName newName : String)
    (transformer : List V → Option (List V)) (s : WarnOnceState) :
    List (Nat × Bool × List V) →
      WarnOnceState × List (Option String) × List (Option (String × List V))
  | [] => (s, [], [])
  | (cnt, nd, args) :: rest =>
    let r := eventListenerStep oldName newName transformer s cnt nd args
    let rr := eventRun oldName newName transformer r.1 rest
    (rr.1, r.2.1 :: rr.2.1, r.2.2 :: rr.2.2)

/-- A JavaScript property descriptor as inspected by `removeProperty`:
`get` and `set` are the (possibly absent) accessor functions; a plain data
property has neither. `G` and `S` are the types of the original getter and
setter. -/
structure Descriptor (G S : Type) where
  get : Option G
  set : Option S

/-- Outcome of `removeProperty`: either the object is returned untouched
(the two soft-failure paths), or the property was replaced with the warning
accessor pair wrapping the original getter and setter. -/
inductive RemovePropResult (O G S : Type) where
  | unchanged : O → RemovePropResult O G S
  | wrapped : O → G → S → RemovePropResult O G S

/-- Embedding of `removeProperty(object, removedName, onlyForValues?)` up to
the accessor installation: `protoDesc` is
`Object.getOwnPropertyDescriptor(object.__proto__, removedName)`. A missing
descriptor or one without both `get` and `set` logs a diagnostic through the
Notice Sink and returns the object unchanged; otherwise the property is
wrapped. The first component lists the messages sent to the Notice Sink during
the call. -/
def removeProperty {O G S : Type} (object : O) (protoDesc : Option (Descriptor G S))
    (removedName : String) : List String × RemovePropResult O G S :=
  match protoDesc with
  | none =>
      (["Unable to remove property " ++ singleQuote ++ removedName ++ singleQuote ++
          " from an object that lacks it."],
        RemovePropResult.unchanged object)
  | some info =>
    match info.get, info.set with
    | some g, some st => ([], RemovePropResult.wrapped object g st)
    | _, _ =>
        (["Unable to remove property " ++ singleQuote ++ removedName ++ singleQuote ++
            " from an object does not have a getter / setter"],
          RemovePropResult.unchanged object)

/-- One write through the accessor installed by `removeProperty` on its
success path: the dedup closure fires only when `onlyForValues` is absent or
contains the written value, and the write is always forwarded to the original
setter (`info.set!.call(object, newVal)`); the third component is the value
passed to the original setter. -/
def removePropertySetStep {V : Type} [DecidableEq V] (removedName : String)
    (onlyForValues : Option (List V)) (s : WarnOnceState) (noDeprecation : Bool)
    (newVal : V) : WarnOnceState × Option String × V :=
  let gateOpen : Bool :=
    match onlyForValues with
    | none => true
    | some vs => if newVal ∈ vs then true else false
  let r := if gateOpen then warnOnceStep (warnOnceMsg removedName none) s noDeprecation
    else (s, none)
  (r.1, r.2, newVal)

/-- One read through the accessor installed by `removeProperty` on its success
path: the dedup closure fires, then the original getter is called
(`info.get!.call(object)`); `origGet` is the value the original getter
produces. -/
def removePropertyGetStep {V : Type} (removedName : String) (s : WarnOnceState)
    (noDeprecation : Bool) (origGet : V) : WarnOnceState × Option String × V :=
  let r := warnOnceStep (warnOnceMsg removedName none) s noDeprecation
  (r.1, r.2, origGet)

/-- Embedding of the construction `renameProperty(object, oldName, newName)`.
The object is modelled by its own data fields, `fields : String → Option V`.
A fresh dedup closure `warnOnce(oldName, newName)` is created; if `oldName` is
present and `newName` absent, the closure fires immediately and the value is
copied from `oldName` to `newName`. Returns the fields after the migration,
the closure state, and the message (if any) forwarded to the Notice Sink. -/
def renamePropertyConstruct {V : Type} (fields : String → Option V)
    (oldName newName : String) (noDeprecation : Bool) :
    (String → Option V) × WarnOnceState × Option String :=
  if (fields oldName).isSome && !(fields newName).isSome then
    let r := warnOnceStep (warnOnceMsg oldName (some newName)) ⟨false, 0⟩ noDeprecation
    (fun k => if k = newName then fields oldName else fields k, r.1, r.2)
  else (fields, ⟨false, 0⟩, none)

/-- One read of `object[oldName]` through the accessor installed by
`renameProperty`: the shared dedup closure fires, then `object[newName]` is
returned. -/
def renamePropertyGet {V : Type} (fields : String → Option V)
    (oldName newName : String) (s : WarnOnceState) (noDeprecation : Bool) :
    Option V × WarnOnceState × Option String :=
  let r := warnOnceStep (warnOnceMsg oldName (some newName)) s noDeprecation
  (fields newName, r.1, r.2)

/-- One write of `object[oldName] = value` through the accessor installed by
`renameProperty`: the shared dedup closure fires, then `object[newName]` is
assigned `value`. -/
def renamePropertySet {V : Type} (fields : String → Option V)
    (oldName newName : String) (s : WarnOnceState) (noDeprecation : Bool)
    (value : V) : (String → Option V) × WarnOnceState × Option String :=
  let r := warnOnceStep (warnOnceMsg oldName (some newName)) s noDeprecation
  (fun k => if k = newName then some value else fields k, r.1, r.2)

end Deprecate

namespace Deprecate

/-- Emissions of a run are the `some` entries, in order. -/
def emissions (l : List (Option String)) : List String := l.filterMap id

theorem warnOnceStep_warned (msg : String) (s : WarnOnceState) (f : Bool)
    (h : s.warned = true) :
    warnOnceStep msg s f = (⟨true, s.calls + 1⟩, none) := by
  simp [warnOnceStep, h]

theorem warnOnceRun_warned (msg : String) (flagReads : List Bool) :
    ∀ s : WarnOnceState, s.warned = true →
      (warnOnceRun msg s flagReads).1.warned = true ∧
      (warnOnceRun msg s flagReads).2 = List.replicate flagReads.length none := by
  induction flagReads with
  | nil => intro s h; simpa [warnOnceRun]
  | cons f rest ih =>
    intro s h
    have hstep := warnOnceStep_warned msg s f h
    have := ih ⟨true, s.calls + 1⟩ rfl
    simp [warnOnceRun, hstep, this.1, this.2, List.replicate_succ]

theorem warnOnceRun_suppressed (msg : String) (n : Nat) :
    ∀ c : Nat, warnOnceRun msg ⟨false, c⟩ (List.replicate n true) =
      (⟨false, c + n⟩, List.replicate n none) := by
  induction n with
  | zero => intro c; simp [warnOnceRun]
  | succ m ih =>
    intro c
    have := ih (c + 1)
    simp [List.replicate_succ, warnOnceRun, warnOnceStep, this, List.replicate_succ]
    omega

theorem warnOnceRun_append (msg : String) (xs ys : List Bool) :
    ∀ s : WarnOnceState, warnOnceRun msg s (xs ++ ys) =
      ((warnOnceRun msg (warnOnceRun msg s xs).1 ys).1,
        (warnOnceRun msg s xs).2 ++ (warnOnceRun msg (warnOnceRun msg s xs).1 ys).2) := by
  induction xs with
  | nil => intro s; simp [warnOnceRun]
  | cons f rest ih =>
    intro s
    simp [warnOnceRun, ih]

theorem emissions_replicate_none (n : Nat) :
    emissions (List.replicate n none) = [] := by
  induction n with
  | zero => rfl
  | succ m _ => simp [emissions, List.replicate_succ]

theorem warnOnceRun_le_one (msg : String) (flagReads : List Bool) :
    ∀ s : WarnOnceState,
      (emissions (warnOnceRun msg s flagReads).2).length ≤
        (if s.warned then 0 else 1) := by
  induction flagReads with
  | nil => intro s; simp [warnOnceRun, emissions]
  | cons f rest ih =>
    intro s
    by_cases hw : s.warned = true
    · have hstep := warnOnceStep_warned msg s f hw
      have htail := ih ⟨true, s.calls + 1⟩
      simp [warnOnceRun, hstep, emissions, hw] at *
      exact htail
    · have hw2 : s.warned = false := by simpa using hw
      cases f with
      | false =>
        have htail := ih ⟨true, s.calls + 1⟩
        simp [warnOnceRun, warnOnceStep, hw2, emissions] at *
        exact htail
      | true =>
        have htail := ih ⟨false, s.calls + 1⟩
        simp [warnOnceRun, warnOnceStep, hw2, emissions] at *
        exact htail

/-- C1: for a closure built by `warnOnceMessage(M)`, invoking it `n ≥ 1` times
while `process.noDeprecation` is off yields exactly one Notice Sink forwarding,
with message `M`; invoking it any number of times with suppression on yields
zero; and from a fresh closure no sequence of invocations ever produces more
than one forwarding. -/
theorem warnOnceMessage_fires_exactly_once (msg : String) (n : Nat)
    (flagReads : List Bool) (hn : 1 ≤ n) :
    emissions (warnOnceRun msg ⟨false, 0⟩ (List.replicate n false)).2 = [msg] ∧
    emissions (warnOnceRun msg ⟨false, 0⟩ (List.replicate n true)).2 = [] ∧
    (emissions (warnOnceRun msg ⟨false, 0⟩ flagReads).2).length ≤ 1 := by
  refine ⟨?_, ?_, ?_⟩
  · obtain ⟨m, rfl⟩ : ∃ m, n = m + 1 := ⟨n - 1, by omega⟩
    have hrest := warnOnceRun_warned msg (List.replicate m false) ⟨true, 1⟩ rfl
    simp [List.replicate_succ, warnOnceRun, warnOnceStep, hrest.2, emissions,
      emissions_replicate_none]
  · rw [warnOnceRun_suppressed msg n 0]
    exact emissions_replicate_none n
  · simpa using warnOnceRun_le_one msg flagReads ⟨false, 0⟩

/-- C1 witness at `msg = "m"`, `n = 2`, `flagReads = [false, true, false]`. -/
theorem warnOnceMessage_fires_exactly_once_witness :
    emissions (warnOnceRun "m" ⟨false, 0⟩ (List.replicate 2 false)).2 = ["m"] ∧
    emissions (warnOnceRun "m" ⟨false, 0⟩ (List.replicate 2 true)).2 = [] ∧
    (emissions (warnOnceRun "m" ⟨false, 0⟩ [false, true, false]).2).length ≤ 1 :=
  warnOnceMessage_fires_exactly_once "m" 2 [false, true, false] (by decide)

/-- C2: the `warned` flag flips from `false` to `true` only on an invocation
with suppression off; once `true` it stays `true` over any further invocations
(never reset); and a run whose first `k - 1` invocations are suppressed and
whose `k`-th has suppression off forwards the message exactly once, at the
`k`-th invocation (suppressed calls do not consume the one-shot). -/
theorem warned_flag_monotone_and_kth_call (msg : String) (s : WarnOnceState)
    (f : Bool) (flagReads : List Bool) (k : Nat) (hk : 1 ≤ k) :
    (s.warned = false → (warnOnceStep msg s f).1.warned = true → f = false) ∧
    (s.warned = false → (warnOnceStep msg s false).1.warned = true) ∧
    (s.warned = true → (warnOnceRun msg s flagReads).1.warned = true) ∧
    (warnOnceRun msg ⟨false, 0⟩ (List.replicate (k - 1) true ++ [false])).2 =
      List.replicate (k - 1) none ++ [some msg] := by
  refine ⟨?_, ?_, ?_, ?_⟩
  · intro hw hflip
    cases f with
    | false => rfl
    | true => simp [warnOnceStep, hw] at hflip
  · intro hw; simp [warnOnceStep, hw]
  · intro hw; exact (warnOnceRun_warned msg flagReads s hw).1
  · rw [warnOnceRun_append msg (List.replicate (k - 1) true) [false] ⟨false, 0⟩,
      warnOnceRun_suppressed msg (k - 1) 0]
    simp [warnOnceRun, warnOnceStep]

/-- C2 witness at `msg = "m"`, `s = ⟨false, 0⟩`, `f = true`,
`flagReads = [true, false]`, `k = 3`. -/
theorem warned_flag_monotone_and_kth_call_witness :
    ((⟨false, 0⟩ : WarnOnceState).warned = false →
      (warnOnceStep "m" ⟨false, 0⟩ true).1.warned = true → true = false) ∧
    ((⟨false, 0⟩ : WarnOnceState).warned = false →
      (warnOnceStep "m" ⟨false, 0⟩ false).1.warned = true) ∧
    ((⟨false, 0⟩ : WarnOnceState).warned = true →
      (warnOnceRun "m" ⟨false, 0⟩ [true, false]).1.warned = true) ∧
    (warnOnceRun "m" ⟨false, 0⟩ (List.replicate (3 - 1) true ++ [false])).2 =
      List.replicate (3 - 1) none ++ [some "m"] :=
  warned_flag_monotone_and_kth_call "m" ⟨false, 0⟩ true [true, false] 3 (by decide)

/-- C3: `log` dispatches by the first matching rule in a fixed order: with a
registered handler the effect is the handler invocation with the message
(regardless of flags, so no throw, no trace, no console output); else with
`throwDeprecation` set an error carrying the message is thrown; else with
`traceDeprecation` set the message is traced; else the message goes to the
warning channel prefixed with `(electron) `. After `setHandler(some h)` every
notice goes to `h`; `setHandler(none)` restores the fallback chain. -/
theorem log_dispatch_order {H : Type} (h : H) (msg : String)
    (flags : ProcessFlags) (nd tr : Bool) :
    log (some h) flags msg = LogEffect.handlerCall h msg ∧
    log (none : Option H) ⟨nd, true, tr⟩ msg = LogEffect.thrown msg ∧
    log (none : Option H) ⟨nd, false, true⟩ msg = LogEffect.traced msg ∧
    log (none : Option H) ⟨nd, false, false⟩ msg =
      LogEffect.consoleWarn ("(electron) " ++ msg) ∧
    log (setHandler (some h)) flags msg = LogEffect.handlerCall h msg ∧
    log (setHandler (none : Option H)) flags msg = log (none : Option H) flags msg := by
  exact ⟨rfl, rfl, rfl, rfl, rfl, rfl⟩

theorem warnOnceStep_calls (msg : String) (s : WarnOnceState) (f : Bool) :
    (warnOnceStep msg s f).1.calls = s.calls + 1 := by
  unfold warnOnceStep
  split <;> rfl

/-- C4: the wrapper returned by `renameFunction(fn, newName)` returns the exact
value of `fn` applied to the caller's arguments with the caller's `this`
binding, and one wrapper instance forwards exactly one warning to the Notice
Sink: on its first invocation (suppression off), and never again on later
invocations. -/
theorem renameFunction_forwards_and_warns_once {Ctx Args Ret : Type}
    (fn : JSFunction Ctx Args Ret) (newName : String) (ctx ctx2 : Ctx)
    (args args2 : Args) (nd2 : Bool) (c : Nat) :
    (renameFunctionCall fn newName ⟨false, 0⟩ false ctx args).wrapperResult
      = fn.call ctx args ∧
    (renameFunctionCall fn newName ⟨false, 0⟩ false ctx args).invokedWith
      = (ctx, args) ∧
    (renameFunctionCall fn newName ⟨false, 0⟩ false ctx args).emitted
      = some (warnOnceMsg (fn.name ++ " function") (some (newName ++ " function"))) ∧
    (renameFunctionCall fn newName
        (renameFunctionCall fn newName ⟨false, 0⟩ false ctx args).state
        nd2 ctx2 args2).emitted = none ∧
    (renameFunctionCall fn newName ⟨true, c⟩ nd2 ctx2 args2).emitted = none := by
  refine ⟨rfl, rfl, rfl, ?_, ?_⟩ <;>
    simp [renameFunctionCall, warnOnceStep]

/-- C5: `removeFunction(fn, removedName)` raises at construction time exactly
when `fn` is absent (the falsy case), with the message naming `removedName`;
otherwise it returns a wrapper that on every invocation fires the dedup
closure (the closure entry count grows by one per call), applies `fn` to the
caller's `this` and arguments, discards `fn`'s result (the wrapper returns
`undefined`, unlike `renameFunction` which forwards the result), and the
warning message is the removed-with-no-replacement form named after `fn`'s
own name. -/
theorem removeFunction_construction_and_call {Ctx Args Ret : Type}
    (fn : JSFunction Ctx Args Ret) (removedName : String) (s : WarnOnceState)
    (nd : Bool) (ctx : Ctx) (args : Args) (c : Nat) :
    removeFunction (none : Option (JSFunction Ctx Args Ret)) removedName
      = Except.error (singleQuote ++ removedName ++ " function" ++ singleQuote ++
          " is invalid or does not exist.") ∧
    removeFunction (some fn) removedName = Except.ok (fn, ⟨false, 0⟩) ∧
    (removeFunctionCall fn s nd ctx args).invokedWith = (ctx, args) ∧
    (removeFunctionCall fn s nd ctx args).fnResult = fn.call ctx args ∧
    (removeFunctionCall fn s nd ctx args).wrapperResult = () ∧
    (removeFunctionCall fn s nd ctx args).state.calls = s.calls + 1 ∧
    (removeFunctionCall fn ⟨false, c⟩ false ctx args).emitted
      = some (warnOnceMsg (fn.name ++ " function") none) := by
  refine ⟨rfl, rfl, rfl, rfl, rfl, ?_, rfl⟩
  exact warnOnceStep_calls _ s nd

theorem eventRun_no_listeners {V : Type} (oldName newName : String)
    (transformer : List V → Option (List V)) (s : WarnOnceState) :
    ∀ inputs : List (Nat × Bool × List V), (∀ i ∈ inputs, i.1 = 0) →
      eventRun oldName newName transformer s inputs
        = (s, List.replicate inputs.length none, List.replicate inputs.length none) := by
  intro inputs
  induction inputs with
  | nil => intro _; simp [eventRun]
  | cons i rest ih =>
    intro hall
    obtain ⟨cnt, nd, args⟩ := i
    have hc : cnt = 0 := hall (cnt, nd, args) (List.mem_cons_self _ _)
    have htail := ih (fun j hj => hall j (List.mem_cons_of_mem _ hj))
    simp [eventRun, eventListenerStep, hc, htail, List.replicate_succ]

theorem eventRun_warned {V : Type} (oldName newName : String) :
    ∀ (inputs : List (Nat × Bool × List V)) (s : WarnOnceState), s.warned = true →
      (eventRun oldName newName defaultTransformer s inputs).2.1
          = List.replicate inputs.length none ∧
      (eventRun oldName newName defaultTransformer s inputs).2.2
          = inputs.map (fun i => if i.1 ≠ 0 then some (oldName, i.2.2) else none) := by
  intro inputs
  induction inputs with
  | nil => intro s _; simp [eventRun]
  | cons i rest ih =>
    intro s hw
    obtain ⟨cnt, nd, args⟩ := i
    by_cases hc : cnt = 0
    · have htail := ih s hw
      simp [eventRun, eventListenerStep, hc, htail.1, htail.2, List.replicate_succ]
    · have hstep := warnOnceStep_warned (eventWarnMessage oldName newName) s nd hw
      have htail := ih ⟨true, s.calls + 1⟩ rfl
      simp [eventRun, eventListenerStep, hc, hstep, defaultTransformer,
        htail.1, htail.2, List.replicate_succ]

/-- C6: for the listener installed by `event(emitter, oldName, newName)`:
emissions of `newName` while no listener is registered under `oldName` produce
zero warnings and zero re-emissions; with at least one `oldName` listener on
every emission (suppression off at the first), exactly one warning is
forwarded, at the first emission, and every emission is re-emitted under
`oldName` with the same arguments (default identity transformer); and when a
supplied transformer returns the falsy `undefined` instead of an array, the
re-emission is suppressed for that delivery. -/
theorem event_warns_once_and_reemits {V : Type} (oldName newName : String)
    (transformer : List V → Option (List V)) (inputs : List (Nat × Bool × List V))
    (c0 : Nat) (a0 : List V) (rest : List (Nat × Bool × List V))
    (s : WarnOnceState) (cnt : Nat) (nd : Bool) (args : List V)
    (hzero : ∀ i ∈ inputs, i.1 = 0) (hc0 : c0 ≠ 0)
    (hrest : ∀ i ∈ rest, i.1 ≠ 0)
    (hfalsy : transformer args = none) (hcnt : cnt ≠ 0) :
    eventRun oldName newName transformer ⟨false, 0⟩ inputs
      = (⟨false, 0⟩, List.replicate inputs.length none,
          List.replicate inputs.length none) ∧
    (eventRun oldName newName defaultTransformer ⟨false, 0⟩
        ((c0, false, a0) :: rest)).2.1
      = some (eventWarnMessage oldName newName) :: List.replicate rest.length none ∧
    (eventRun oldName newName defaultTransformer ⟨false, 0⟩
        ((c0, false, a0) :: rest)).2.2
      = ((c0, false, a0) :: rest).map (fun i => some (oldName, i.2.2)) ∧
    (eventListenerStep oldName newName transformer s cnt nd args).2.2 = none := by
  refine ⟨eventRun_no_listeners oldName newName transformer _ inputs hzero, ?_, ?_, ?_⟩
  · have htail := eventRun_warned oldName newName rest ⟨true, 1⟩ rfl
    simp [eventRun, eventListenerStep, hc0, warnOnceStep, defaultTransformer, htail.1]
  · have htail := eventRun_warned oldName newName rest ⟨true, 1⟩ rfl
    have hmap : rest.map (fun i : Nat × Bool × List V =>
        if i.1 ≠ 0 then some (oldName, i.2.2) else none)
        = rest.map (fun i => some (oldName, i.2.2)) :=
      List.map_congr_left (fun i hi => by simp [hrest i hi])
    have h22 : (eventRun oldName newName defaultTransformer ⟨false, 0⟩
        ((c0, false, a0) :: rest)).2.2
        = some (oldName, a0) :: rest.map (fun i : Nat × Bool × List V =>
            if i.1 ≠ 0 then some (oldName, i.2.2) else none) := by
      simp [eventRun, eventListenerStep, hc0, warnOnceStep, defaultTransformer,
        htail.2]
    rw [h22, hmap, List.map_cons]
  · simp [eventListenerStep, hcnt, hfalsy]

/-- C6 witness at `V = Nat`, `inputs = [(0, false, [1]), (0, true, [])]`,
first live emission `(1, false, [5])` followed by `[(2, true, [7])]`, and a
falsy transformer delivery with `cnt = 1`, `args = [9]`. -/
theorem event_warns_once_and_reemits_witness :
    eventRun "old" "new" (fun _ : List Nat => (none : Option (List Nat)))
        ⟨false, 0⟩ [(0, false, [1]), (0, true, [])]
      = (⟨false, 0⟩, List.replicate 2 none, List.replicate 2 none) ∧
    (eventRun "old" "new" defaultTransformer ⟨false, 0⟩
        ((1, false, [5]) :: [(2, true, [7])])).2.1
      = some (eventWarnMessage "old" "new") :: List.replicate 1 none ∧
    (eventRun "old" "new" defaultTransformer ⟨false, 0⟩
        ((1, false, [5]) :: [(2, true, [7])])).2.2
      = ((1, false, [5]) :: [(2, true, [7])]).map
          (fun i : Nat × Bool × List Nat => some ("old", i.2.2)) ∧
    (eventListenerStep "old" "new" (fun _ : List Nat => (none : Option (List Nat)))
        ⟨false, 0⟩ 1 false [9]).2.2 = none := by
  have h := event_warns_once_and_reemits "old" "new"
    (fun _ : List Nat => (none : Option (List Nat)))
    [(0, false, [1]), (0, true, [])] 1 [5] [(2, true, [7])]
    ⟨false, 0⟩ 1 false [9]
    (by decide) (by decide) (by decide) rfl (by decide)
  simpa using h

/-- C7: when `newName` starts with the reserved `-` marker for internal
events, the warning message `event` uses is the no-replacement form naming
only the old event; a `newName` without the marker yields the form suggesting
the new event name. -/
theorem event_internal_marker_message (oldName newName visible : String)
    (h : startsWithDash newName = true) (h2 : startsWithDash visible = false) :
    eventWarnMessage oldName newName
      = singleQuote ++ (oldName ++ " event") ++ singleQuote ++
        " is deprecated and will be removed." ∧
    eventWarnMessage oldName visible
      = singleQuote ++ (oldName ++ " event") ++ singleQuote ++
        " is deprecated and will be removed. Please use " ++
        singleQuote ++ (visible ++ " event") ++ singleQuote ++ " instead." := by
  constructor
  · simp [eventWarnMessage, h, warnOnceMsg]
  · simp [eventWarnMessage, h2, warnOnceMsg]

/-- C7 witness at `oldName = "close"`, `newName = "-internal-close"`,
`visible = "closed"`. -/
theorem event_internal_marker_message_witness :
    eventWarnMessage "close" "-internal-close"
      = singleQuote ++ ("close" ++ " event") ++ singleQuote ++
        " is deprecated and will be removed." ∧
    eventWarnMessage "close" "closed"
      = singleQuote ++ ("close" ++ " event") ++ singleQuote ++
        " is deprecated and will be removed. Please use " ++
        singleQuote ++ ("closed" ++ " event") ++ singleQuote ++ " instead." :=
  event_internal_marker_message "close" "-internal-close" "closed" (by decide) (by decide)

/-- C8: `removeProperty` on an object whose prototype lacks the property, or
holds it without both getter and setter, does not raise: it sends exactly one
diagnostic message to the Notice Sink and returns the object unchanged. -/
theorem removeProperty_soft_failure {O G S : Type} (object : O)
    (removedName : String) (g : Option G) (st : Option S)
    (hnotboth : g = none ∨ st = none) :
    removeProperty object (none : Option (Descriptor G S)) removedName
      = (["Unable to remove property " ++ singleQuote ++ removedName ++
            singleQuote ++ " from an object that lacks it."],
          RemovePropResult.unchanged object) ∧
    removeProperty object (some ⟨g, st⟩) removedName
      = (["Unable to remove property " ++ singleQuote ++ removedName ++
            singleQuote ++ " from an object does not have a getter / setter"],
          RemovePropResult.unchanged object) := by
  refine ⟨rfl, ?_⟩
  rcases hnotboth with h | h
  · subst h; rfl
  · subst h; cases g <;> rfl

/-- C8 witness at `O = G = S = Nat`, `object = 0`, `removedName = "p"`,
descriptor with a getter but no setter. -/
theorem removeProperty_soft_failure_witness :
    removeProperty (0 : Nat) (none : Option (Descriptor Nat Nat)) "p"
      = (["Unable to remove property " ++ singleQuote ++ "p" ++
            singleQuote ++ " from an object that lacks it."],
          RemovePropResult.unchanged 0) ∧
    removeProperty (0 : Nat) (some ⟨some 1, (none : Option Nat)⟩) "p"
      = (["Unable to remove property " ++ singleQuote ++ "p" ++
            singleQuote ++ " from an object does not have a getter / setter"],
          RemovePropResult.unchanged 0) :=
  removeProperty_soft_failure 0 "p" (some 1) none (Or.inr rfl)

/-- C9: `renameProperty(obj, oldName, newName)` with `obj[oldName] = v` and
`newName` absent migrates the value at construction time (`obj[newName] = v`
afterwards) and forwards the warning to the Notice Sink immediately as part of
that migration; afterwards reading `obj[oldName]` returns `v` and fires the
shared deduplicated warn closure (one more closure entry), and writing `w` to
`obj[oldName]` sets `obj[newName]` to `w`, also firing the closure. -/
theorem renameProperty_migrates_and_redirects {V : Type}
    (fields : String → Option V) (oldName newName : String) (v w : V)
    (hold : fields oldName = some v) (hnew : fields newName = none) :
    (renamePropertyConstruct fields oldName newName false).1 newName = some v ∧
    (renamePropertyConstruct fields oldName newName false).2.2
      = some (warnOnceMsg oldName (some newName)) ∧
    (renamePropertyGet (renamePropertyConstruct fields oldName newName false).1
        oldName newName (renamePropertyConstruct fields oldName newName false).2.1
        false).1 = some v ∧
    (renamePropertyGet (renamePropertyConstruct fields oldName newName false).1
        oldName newName (renamePropertyConstruct fields oldName newName false).2.1
        false).2.1.calls
      = (renamePropertyConstruct fields oldName newName false).2.1.calls + 1 ∧
    (renamePropertySet (renamePropertyConstruct fields oldName newName false).1
        oldName newName (renamePropertyConstruct fields oldName newName false).2.1
        false w).1 newName = some w ∧
    (renamePropertySet (renamePropertyConstruct fields oldName newName false).1
        oldName newName (renamePropertyConstruct fields oldName newName false).2.1
        false w).2.1.calls
      = (renamePropertyConstruct fields oldName newName false).2.1.calls + 1 := by
  refine ⟨?_, ?_, ?_, ?_, ?_, ?_⟩ <;>
    simp [renamePropertyConstruct, renamePropertyGet, renamePropertySet,
      hold, hnew, warnOnceStep]

/-- C9 witness at `V = Nat`, `fields = {old ↦ 5}`, `v = 5`, `w = 7`. -/
theorem renameProperty_migrates_and_redirects_witness :
    ((renamePropertyConstruct (fun k => if k = "old" then some 5 else none)
        "old" "new" false).1 "new" = some 5 ∧
      (renamePropertyConstruct (fun k => if k = "old" then some 5 else none)
        "old" "new" false).2.2 = some (warnOnceMsg "old" (some "new")) ∧
      (renamePropertyGet (renamePropertyConstruct
          (fun k => if k = "old" then some 5 else none) "old" "new" false).1
        "old" "new" (renamePropertyConstruct
          (fun k => if k = "old" then some 5 else none) "old" "new" false).2.1
        false).1 = some 5 ∧
      (renamePropertyGet (renamePropertyConstruct
          (fun k => if k = "old" then some 5 else none) "old" "new" false).1
        "old" "new" (renamePropertyConstruct
          (fun k => if k = "old" then some 5 else none) "old" "new" false).2.1
        false).2.1.calls
        = (renamePropertyConstruct (fun k => if k = "old" then some 5 else none)
            "old" "new" false).2.1.calls + 1 ∧
      (renamePropertySet (renamePropertyConstruct
          (fun k => if k = "old" then some 5 else none) "old" "new" false).1
        "old" "new" (renamePropertyConstruct
          (fun k => if k = "old" then some 5 else none) "old" "new" false).2.1
        false 7).1 "new" = some 7 ∧
      (renamePropertySet (renamePropertyConstruct
          (fun k => if k = "old" then some 5 else none) "old" "new" false).1
        "old" "new" (renamePropertyConstruct
          (fun k => if k = "old" then some 5 else none) "old" "new" false).2.1
        false 7).2.1.calls
        = (renamePropertyConstruct (fun k => if k = "old" then some 5 else none)
            "old" "new" false).2.1.calls + 1) :=
  renameProperty_migrates_and_redirects
    (fun k => if k = "old" then some 5 else none) "old" "new" 5 7
    (by simp) (by simp)

/-- C10: the setter installed by `removeProperty` on its success path always
forwards the written value to the original setter, for every value and every
`onlyForValues` filter; the filter gates only whether the dedup closure fires
(it fires exactly on values belonging to `onlyForValues`, and always when no
filter is supplied), never whether the write takes effect. -/
theorem removePropertySet_always_forwards {V : Type} [DecidableEq V]
    (removedName : String) (vs : List V) (s : WarnOnceState) (nd : Bool)
    (a b v : V) (onlyForValues : Option (List V))
    (ha : a ∈ vs) (hb : b ∉ vs) :
    (removePropertySetStep removedName onlyForValues s nd v).2.2 = v ∧
    removePropertySetStep removedName (some vs) s nd b = (s, none, b) ∧
    removePropertySetStep removedName (some vs) s nd a
      = ((warnOnceStep (warnOnceMsg removedName none) s nd).1,
          (warnOnceStep (warnOnceMsg removedName none) s nd).2, a) ∧
    removePropertySetStep removedName none s nd v
      = ((warnOnceStep (warnOnceMsg removedName none) s nd).1,
          (warnOnceStep (warnOnceMsg removedName none) s nd).2, v) := by
  refine ⟨rfl, ?_, ?_, rfl⟩
  · simp [removePropertySetStep, hb]
  · simp [removePropertySetStep, ha]

/-- C10 witness at `V = Nat`, `vs = [1]`, `a = 1`, `b = 2`, `v = 3`,
no filter for the first and last conjuncts. -/
theorem removePropertySet_always_forwards_witness :
    (removePropertySetStep "p" (none : Option (List Nat)) ⟨false, 0⟩ false 3).2.2
        = 3 ∧
    removePropertySetStep "p" (some [1]) ⟨false, 0⟩ false 2
      = (⟨false, 0⟩, none, 2) ∧
    removePropertySetStep "p" (some [1]) ⟨false, 0⟩ false 1
      = ((warnOnceStep (warnOnceMsg "p" none) ⟨false, 0⟩ false).1,
          (warnOnceStep (warnOnceMsg "p" none) ⟨false, 0⟩ false).2, 1) ∧
    removePropertySetStep "p" (none : Option (List Nat)) ⟨false, 0⟩ false 3
      = ((warnOnceStep (warnOnceMsg "p" none) ⟨false, 0⟩ false).1,
          (warnOnceStep (warnOnceMsg "p" none) ⟨false, 0⟩ false).2, 3) :=
  removePropertySet_always_forwards "p" [1] ⟨false, 0⟩ false 1 2 3 none
    (by decide) (by decide)

end Deprecate
